import Mathlib

/-!
Verification of the core of `src/main.py` of the object-detection repository:
the crop rule `detect_and_crop` (lines 156-178), the batch pipeline
`process_images` (lines 280-335) with its progress, cancellation and
per-item error isolation, the file-enumeration filter `EXAMPLES`
(lines 146-152), and the inference parameters `INF_PARAMETERS`
(lines 138-142).

The detector (`MODEL.predict`) and the image codec (PIL) are external
collaborators; they enter the model through their observable behaviour:
the detector's boxes (`result.boxes.xyxy`), the decode/save outcomes of an
item, and PIL's documented `Image.crop` semantics (a box that extends
beyond the image is padded, an inverted box raises `ValueError`, the box
is never clamped to the image).
-/

/-- A decoded raster image: width, height and a row-major pixel grid,
modelling the `PIL.Image.Image` values that flow through
`detect_and_crop` (src/main.py line 314 and lines 174-176).  Pixel values
are abstracted to natural numbers; a pixel outside the stored grid reads
as 0, which is PIL's black padding. -/
structure Img where
  width : Nat
  height : Nat
  pixels : List (List Nat)
  deriving DecidableEq

/-- One detection box in xyxy pixel coordinates: a row of
`result.boxes.xyxy` (src/main.py lines 170-173).  The source values are
floats that PIL rounds to integers inside `Image.crop`; the model works
directly with the rounded integer coordinates. -/
structure Box where
  x0 : Int
  y0 : Int
  x1 : Int
  y1 : Int
  deriving DecidableEq

/-- The five item-scoped failure kinds of the spec's error taxonomy, as
they surface through the exception classes CAUGHT at src/main.py
lines 325-330: `FileNotFoundError`/`PermissionError` (missing file),
`OSError`/`Image.UnidentifiedImageError` (decode and encode failures)
and `ValueError` (invalid detection boxes rejected by PIL).  The catch
set does not cover every way a failure can surface: an inference
failure raised as, say, `RuntimeError`, or an `OverflowError` from PIL
rounding a non-finite coordinate, escapes the loop — that uncaught path
is modelled separately by `PyExc`/`caughtByExcept`/`runLoopExc` below;
an `ErrorKind` value always stands for a failure that the loop
catches. -/
inductive ErrorKind
  | missingFile
  | decodeError
  | inferenceError
  | encodeError
  | invalidDetection
  deriving DecidableEq

/-- Pixel read with PIL's padding convention: coordinates inside the
image read the stored grid, anything else reads black (0). -/
def Img.px (img : Img) (x y : Int) : Nat :=
  if 0 ≤ x ∧ x < (img.width : Int) ∧ 0 ≤ y ∧ y < (img.height : Int) then
    (img.pixels.getD y.toNat []).getD x.toNat 0
  else 0

/-- The raster produced by `PIL.Image.crop` for a non-inverted box: the
region is taken verbatim from the box, without clamping to the image
bounds; pixels that fall outside the source image are padding (0). -/
def cropGrid (img : Img) (b : Box) : Img :=
  let w := (b.x1 - b.x0).toNat
  let h := (b.y1 - b.y0).toNat
  { width := w
    height := h
    pixels := (List.range h).map
      (fun y => (List.range w).map (fun x => img.px (b.x0 + x) (b.y0 + y))) }

/-- Semantics of `image.crop(box=(x0, y0, x1, y1))` at src/main.py
line 175: PIL raises `ValueError` when the box is inverted
(`x1 < x0` or `y1 < y0`), and otherwise returns the unclamped region,
padded where it leaves the source image.  A zero-area box yields an
empty 0-by-0 image, not an error. -/
def pilCrop (img : Img) (b : Box) : Except ErrorKind Img :=
  if b.x1 < b.x0 then Except.error ErrorKind.invalidDetection
  else if b.y1 < b.y0 then Except.error ErrorKind.invalidDetection
  else Except.ok (cropGrid img b)

/-- The fixed inference configuration `INF_PARAMETERS` of src/main.py
lines 138-142. -/
structure InfParams where
  imgsz : Nat
  conf : ℚ
  max_det : Nat
  deriving DecidableEq

/-- src/main.py lines 138-142: image size 640, confidence threshold 0.8,
at most one detection. -/
def INF_PARAMETERS : InfParams :=
  { imgsz := 640, conf := 0.8, max_det := 1 }

/-- The crop rule of `detect_and_crop` (src/main.py lines 156-178), with
the detector's output passed in as an argument: `none` models
`result.boxes` being `None` (or lacking `xyxy`), `some bs` models the box
list `result.boxes.xyxy`.  If there is no box the original image is
returned; otherwise the image is cropped to the first box via PIL's
`Image.crop`. -/
def detect_and_crop (image : Img) (boxes : Option (List Box)) :
    Except ErrorKind Img :=
  match boxes with
  | none => Except.ok image
  | some bs =>
    match bs with
    | [] => Except.ok image
    | b :: _ => pilCrop image b

/-- A concrete 2-by-2 image used as a test fixture. -/
def imgA : Img :=
  { width := 2, height := 2, pixels := [[1, 2], [3, 4]] }

/-- A zero-area detection box (both corners at the same point). -/
def zeroBox : Box := { x0 := 1, y0 := 1, x1 := 1, y1 := 1 }

/-- An inverted detection box (`x1 < x0`). -/
def invBox : Box := { x0 := 3, y0 := 0, x1 := 0, y1 := 3 }

/-- C3 counterexample: on the concrete 2-by-2 image `imgA` with the
zero-area first box `zeroBox`, the claim says the selector must return
`NoCrop`, i.e. the unmodified image; the code instead returns the empty
0-by-0 crop that `Image.crop` produces, so the claimed equation fails. -/
theorem detect_and_crop_no_clamp_cex :
    ¬ detect_and_crop imgA (some [zeroBox]) = Except.ok imgA := by
  intro h
  have hred : detect_and_crop imgA (some [zeroBox]) =
      Except.ok (cropGrid imgA zeroBox) := by
    simp [detect_and_crop, pilCrop, zeroBox]
  rw [hred] at h
  exact absurd (congrArg Img.width (Except.ok.inj h)) (by decide)

/-- C3 (amended): `detect_and_crop` applies the first box unclamped:
an inverted box (negative width or height) raises PIL's `ValueError`,
which the pipeline records as an invalid-detection failure for that item;
any non-inverted box — including zero-area and out-of-bounds boxes —
produces exactly the raw, unclamped crop `cropGrid image b`. -/
theorem detect_and_crop_first_box_unclamped (image : Img) (b : Box)
    (bs : List Box) :
    (b.x1 < b.x0 ∨ b.y1 < b.y0 →
      detect_and_crop image (some (b :: bs)) =
        Except.error ErrorKind.invalidDetection) ∧
    (b.x0 ≤ b.x1 → b.y0 ≤ b.y1 →
      detect_and_crop image (some (b :: bs)) = Except.ok (cropGrid image b)) := by
  constructor
  · intro h
    rcases h with h | h
    · simp [detect_and_crop, pilCrop, h]
    · by_cases hx : b.x1 < b.x0
      · simp [detect_and_crop, pilCrop, hx]
      · simp [detect_and_crop, pilCrop, hx, h]
  · intro hx hy
    simp [detect_and_crop, pilCrop, Int.not_lt.mpr hx, Int.not_lt.mpr hy]

/-- C3 amended-claim witness at a concrete input: the inverted box
`invBox` on `imgA` is rejected as an invalid detection. -/
theorem detect_and_crop_first_box_unclamped_inst :
    detect_and_crop imgA (some [invBox]) =
      Except.error ErrorKind.invalidDetection :=
  (detect_and_crop_first_box_unclamped imgA invBox []).1 (Or.inl (by decide))

/-- C5: the crop is derived from exactly the first box of the detector's
native order — the result does not depend on any later boxes — and the
pipeline requests at most one detection (`max_det = 1` in
`INF_PARAMETERS`). -/
theorem detect_and_crop_uses_first_box_only (image : Img) (b : Box)
    (bs : List Box) :
    detect_and_crop image (some (b :: bs)) = pilCrop image b ∧
    INF_PARAMETERS.max_det = 1 :=
  ⟨rfl, rfl⟩

/-- One batch item: the stem and suffix of the source path, the pieces
`process_images` uses to build the destination name
(src/main.py line 318). -/
structure Item where
  stem : String
  suffix : String
  deriving DecidableEq

/-- Destination naming rule of src/main.py line 318:
`output_dir / (stem + "_cropped" + suffix)`. -/
def destName (it : Item) : String :=
  it.stem ++ "_cropped" ++ it.suffix

/-- The externally determined behaviour of one item's processing: the
outcome of `Image.open` (line 314), the detector's output inside
`detect_and_crop` (line 165), and whether `save` (line 319) succeeds.
These are the collaborator calls inside the `try` block of
`process_images`. -/
structure ItemWorld where
  decode : Except ErrorKind Img
  detect : Except ErrorKind (Option (List Box))
  save : Bool

/-- The body of the `try` block at src/main.py lines 312-321 for one
item: decode the image, run detection and cropping, then save; the first
failure aborts the item with its error kind. On success the returned
image is exactly the raster written to the destination file.  Because
`ErrorKind` only covers failures surfacing as caught exception classes,
this models runs in which no collaborator raises outside the catch set
of lines 325-330; the uncaught-exception path is modelled at exception
level by `runLoopExc` below. -/
def processItem (w : ItemWorld) : Except ErrorKind Img :=
  match w.decode with
  | Except.error e => Except.error e
  | Except.ok img =>
    match w.detect with
    | Except.error e => Except.error e
    | Except.ok det =>
      match detect_and_crop img det with
      | Except.error e => Except.error e
      | Except.ok cropped =>
        if w.save then Except.ok cropped else Except.error ErrorKind.encodeError

/-- Whether one item's processing succeeds (no exception in the `try`
block). -/
def itemOk (w : ItemWorld) : Bool :=
  match processItem w with
  | Except.ok _ => true
  | Except.error _ => false

/-- Observable actions of `process_images`, in program order: creating
the output directory (line 297), opening the progress window with the
total (line 300, the spec's `on_start`), the per-item progress update
(line 310, the spec's `on_item`), writing a destination file (line 319),
logging a per-item failure (lines 325-330), and closing the progress
window (lines 306 and 333). -/
inductive Event
  | mkdirOut
  | onStart (total : Nat)
  | onItem (index : Nat) (name : String)
  | writeFile (name : String) (content : Img)
  | logError (index : Nat) (e : ErrorKind)
  | closeWindow
  deriving DecidableEq

/-- Terminal report of `process_images`: the "No images processed"
return (line 294), the cancellation return with partial counts
(line 307), or the completion return (line 335). -/
inductive RunStatus
  | noImages
  | cancelledAt (processed total : Nat)
  | completed (processed : Nat)
  deriving DecidableEq

/-- Result of one `process_images` run: the terminal status, the ordered
event log, and the trace of `processed_count` values observed at each
loop boundary (and at loop exit). -/
structure RunOutput where
  status : RunStatus
  events : List Event
  trace : List Nat
  deriving DecidableEq

/-- The `processed_count` reported by the terminal status. -/
def RunOutput.processedCount (o : RunOutput) : Nat :=
  match o.status with
  | RunStatus.noImages => 0
  | RunStatus.cancelledAt p _ => p
  | RunStatus.completed p => p

/-- Whether the run ended in the cancelled terminal state. -/
def RunOutput.isCancelled (o : RunOutput) : Bool :=
  match o.status with
  | RunStatus.cancelledAt _ _ => true
  | _ => false

/-- The destination files written during the run, in order, with their
contents. -/
def RunOutput.writes (o : RunOutput) : List (String × Img) :=
  o.events.filterMap (fun e =>
    match e with
    | Event.writeFile n c => some (n, c)
    | _ => none)

/-- The `on_start` notifications that fired during the run. -/
def RunOutput.startEvents (o : RunOutput) : List Event :=
  o.events.filter (fun e =>
    match e with
    | Event.onStart _ => true
    | _ => false)

/-- The number of items whose processing was begun (`on_item` firings,
src/main.py line 310). -/
def RunOutput.attempts (o : RunOutput) : Nat :=
  (o.events.filter (fun e =>
    match e with
    | Event.onItem _ _ => true
    | _ => false)).length

/-- The `for` loop of `process_images` (src/main.py lines 303-331).
`world i` fixes the collaborator behaviour for item `i`; `sig i = true`
means the cancel action (`cancel_processing`, lines 227-229, or closing
the window) fires while item `i` is being processed, so the global
`PROGRESS_CANCELLED` flag — threaded here as `flag` — is set when the
loop next reaches its boundary check at line 305.  The flag is read only
at that boundary, before `update_progress` and the `try` block; it is
ored with the incoming signal and never cleared inside the loop. -/
def runLoop (world : Nat → ItemWorld) (sig : Nat → Bool) :
    List Item → Nat → Nat → Nat → Bool → RunOutput
  | [], _i, processed, _total, _flag =>
    { status := RunStatus.completed processed
      events := [Event.closeWindow]
      trace := [processed] }
  | it :: rest, i, processed, total, flag =>
    if flag then
      { status := RunStatus.cancelledAt processed total
        events := [Event.closeWindow]
        trace := [processed] }
    else
      match processItem (world i) with
      | Except.ok content =>
        let out := runLoop world sig rest (i + 1) (processed + 1) total (sig i)
        { status := out.status
          events := Event.onItem i (it.stem ++ it.suffix) ::
            Event.writeFile (destName it) content :: out.events
          trace := processed :: out.trace }
      | Except.error e =>
        let out := runLoop world sig rest (i + 1) processed total (sig i)
        { status := out.status
          events := Event.onItem i (it.stem ++ it.suffix) ::
            Event.logError i e :: out.events
          trace := processed :: out.trace }

/-- `process_images` (src/main.py lines 280-335).  `priorFlag` is the
value of the global `PROGRESS_CANCELLED` left over from before the call;
`create_progress_window` (line 193) resets it to `false` before the loop
starts, which is why the loop below begins with the flag `false`
whatever `priorFlag` was.  An empty item list returns at line 294 before
the output directory is created and before the progress window opens. -/
def process_images (_priorFlag : Bool) (items : List Item)
    (world : Nat → ItemWorld) (sig : Nat → Bool) : RunOutput :=
  if items.isEmpty then
    { status := RunStatus.noImages, events := [], trace := [] }
  else
    let body := runLoop world sig items 0 0 items.length false
    { status := body.status
      events := Event.mkdirOut :: Event.onStart items.length :: body.events
      trace := body.trace }

/-- Semantics of `output_dir.mkdir(exist_ok=True)` (src/main.py
line 297): whether or not the directory already exists, the call
succeeds and afterwards the directory exists. -/
def mkdirExistOk (_already : Bool) : Except ErrorKind Bool :=
  Except.ok true

/-- Number of successful items among `world i, ..., world (i + n - 1)`. -/
def okCount (world : Nat → ItemWorld) (i : Nat) : Nat → Nat
  | 0 => 0
  | n + 1 => (if itemOk (world i) then 1 else 0) + okCount world (i + 1) n

theorem itemOk_true_iff (w : ItemWorld) :
    itemOk w = true ↔ ∃ c, processItem w = Except.ok c := by
  unfold itemOk
  cases h : processItem w <;> simp

theorem runLoop_flag_true (world : Nat → ItemWorld) (sig : Nat → Bool)
    (it : Item) (rest : List Item) (i p t : Nat) :
    runLoop world sig (it :: rest) i p t true =
      { status := RunStatus.cancelledAt p t
        events := [Event.closeWindow]
        trace := [p] } := by
  simp [runLoop]

theorem runLoop_cons_ok_status (world : Nat → ItemWorld) (sig : Nat → Bool)
    (it : Item) (rest : List Item) (i p t : Nat) (c : Img)
    (h : processItem (world i) = Except.ok c) :
    (runLoop world sig (it :: rest) i p t false).status =
      (runLoop world sig rest (i + 1) (p + 1) t (sig i)).status := by
  simp [runLoop, h]

theorem runLoop_cons_ok_events (world : Nat → ItemWorld) (sig : Nat → Bool)
    (it : Item) (rest : List Item) (i p t : Nat) (c : Img)
    (h : processItem (world i) = Except.ok c) :
    (runLoop world sig (it :: rest) i p t false).events =
      Event.onItem i (it.stem ++ it.suffix) ::
        Event.writeFile (destName it) c ::
          (runLoop world sig rest (i + 1) (p + 1) t (sig i)).events := by
  simp [runLoop, h]

theorem runLoop_cons_ok_trace (world : Nat → ItemWorld) (sig : Nat → Bool)
    (it : Item) (rest : List Item) (i p t : Nat) (c : Img)
    (h : processItem (world i) = Except.ok c) :
    (runLoop world sig (it :: rest) i p t false).trace =
      p :: (runLoop world sig rest (i + 1) (p + 1) t (sig i)).trace := by
  simp [runLoop, h]

theorem runLoop_cons_err_status (world : Nat → ItemWorld) (sig : Nat → Bool)
    (it : Item) (rest : List Item) (i p t : Nat) (e : ErrorKind)
    (h : processItem (world i) = Except.error e) :
    (runLoop world sig (it :: rest) i p t false).status =
      (runLoop world sig rest (i + 1) p t (sig i)).status := by
  simp [runLoop, h]

theorem runLoop_cons_err_events (world : Nat → ItemWorld) (sig : Nat → Bool)
    (it : Item) (rest : List Item) (i p t : Nat) (e : ErrorKind)
    (h : processItem (world i) = Except.error e) :
    (runLoop world sig (it :: rest) i p t false).events =
      Event.onItem i (it.stem ++ it.suffix) ::
        Event.logError i e ::
          (runLoop world sig rest (i + 1) p t (sig i)).events := by
  simp [runLoop, h]

theorem runLoop_cons_err_trace (world : Nat → ItemWorld) (sig : Nat → Bool)
    (it : Item) (rest : List Item) (i p t : Nat) (e : ErrorKind)
    (h : processItem (world i) = Except.error e) :
    (runLoop world sig (it :: rest) i p t false).trace =
      p :: (runLoop world sig rest (i + 1) p t (sig i)).trace := by
  simp [runLoop, h]

theorem processedCount_of_completed {o : RunOutput} {p : Nat}
    (h : o.status = RunStatus.completed p) : o.processedCount = p := by
  simp [RunOutput.processedCount, h]

theorem processedCount_of_cancelled {o : RunOutput} {p t : Nat}
    (h : o.status = RunStatus.cancelledAt p t) : o.processedCount = p := by
  simp [RunOutput.processedCount, h]

theorem isCancelled_of_completed {o : RunOutput} {p : Nat}
    (h : o.status = RunStatus.completed p) : o.isCancelled = false := by
  simp [RunOutput.isCancelled, h]


theorem writes_of_events {o o' : RunOutput} (h : o.events = o'.events) :
    o.writes = o'.writes := by
  simp [RunOutput.writes, h]

theorem runLoop_cons_ok_writes (world : Nat → ItemWorld) (sig : Nat → Bool)
    (it : Item) (rest : List Item) (i p t : Nat) (c : Img)
    (h : processItem (world i) = Except.ok c) :
    (runLoop world sig (it :: rest) i p t false).writes =
      (destName it, c) :: (runLoop world sig rest (i + 1) (p + 1) t (sig i)).writes := by
  simp [RunOutput.writes, runLoop_cons_ok_events world sig it rest i p t c h]

theorem runLoop_cons_err_writes (world : Nat → ItemWorld) (sig : Nat → Bool)
    (it : Item) (rest : List Item) (i p t : Nat) (e : ErrorKind)
    (h : processItem (world i) = Except.error e) :
    (runLoop world sig (it :: rest) i p t false).writes =
      (runLoop world sig rest (i + 1) p t (sig i)).writes := by
  simp [RunOutput.writes, runLoop_cons_err_events world sig it rest i p t e h]

theorem runLoop_cons_ok_attempts (world : Nat → ItemWorld) (sig : Nat → Bool)
    (it : Item) (rest : List Item) (i p t : Nat) (c : Img)
    (h : processItem (world i) = Except.ok c) :
    (runLoop world sig (it :: rest) i p t false).attempts =
      (runLoop world sig rest (i + 1) (p + 1) t (sig i)).attempts + 1 := by
  simp [RunOutput.attempts, runLoop_cons_ok_events world sig it rest i p t c h]

theorem runLoop_cons_err_attempts (world : Nat → ItemWorld) (sig : Nat → Bool)
    (it : Item) (rest : List Item) (i p t : Nat) (e : ErrorKind)
    (h : processItem (world i) = Except.error e) :
    (runLoop world sig (it :: rest) i p t false).attempts =
      (runLoop world sig rest (i + 1) p t (sig i)).attempts + 1 := by
  simp [RunOutput.attempts, runLoop_cons_err_events world sig it rest i p t e h]

theorem okCount_all_ok (world : Nat → ItemWorld) :
    ∀ (n i : Nat), (∀ m, i ≤ m → m < i + n → itemOk (world m) = true) →
      okCount world i n = n := by
  intro n
  induction n with
  | zero => intro i _; rfl
  | succ n ih =>
    intro i h
    have h0 : itemOk (world i) = true := h i le_rfl (by omega)
    have hr : okCount world (i + 1) n = n :=
      ih (i + 1) (fun m hm1 hm2 => h m (by omega) (by omega))
    rw [okCount, h0, hr]
    simp
    omega

theorem okCount_one_fail (world : Nat → ItemWorld) :
    ∀ (n i j : Nat), i ≤ j → j < i + n →
      itemOk (world j) = false →
      (∀ m, i ≤ m → m < i + n → m ≠ j → itemOk (world m) = true) →
      okCount world i n = n - 1 := by
  intro n
  induction n with
  | zero => intro i j h1 h2 _ _; omega
  | succ n ih =>
    intro i j h1 h2 h3 h4
    by_cases hij : i = j
    · subst hij
      have hr : okCount world (i + 1) n = n :=
        okCount_all_ok world n (i + 1)
          (fun m hm1 hm2 => h4 m (by omega) (by omega) (by omega))
      rw [okCount, h3, hr]
      simp
    · have hhead : itemOk (world i) = true := h4 i le_rfl (by omega) hij
      have hr : okCount world (i + 1) n = n - 1 :=
        ih (i + 1) j (by omega) (by omega) h3
          (fun m hm1 hm2 hmj => h4 m (by omega) (by omega) hmj)
      rw [okCount, hhead, hr]
      simp
      omega

theorem runLoop_no_sig_completed (world : Nat → ItemWorld) (sig : Nat → Bool)
    (hsig : ∀ n, sig n = false) :
    ∀ (rest : List Item) (i p t : Nat),
      (runLoop world sig rest i p t false).status =
        RunStatus.completed (p + okCount world i rest.length) ∧
      (runLoop world sig rest i p t false).attempts = rest.length := by
  intro rest
  induction rest with
  | nil =>
    intro i p t
    constructor
    · simp [runLoop, okCount]
    · simp [runLoop, RunOutput.attempts]
  | cons it rest ih =>
    intro i p t
    cases hw : processItem (world i) with
    | ok c =>
      obtain ⟨h1, h2⟩ := ih (i + 1) (p + 1) t
      constructor
      · rw [runLoop_cons_ok_status world sig it rest i p t c hw, hsig i, h1,
          List.length_cons, okCount, itemOk, hw]
        simp
        try omega
      · rw [runLoop_cons_ok_attempts world sig it rest i p t c hw, hsig i, h2,
          List.length_cons]
    | error e =>
      obtain ⟨h1, h2⟩ := ih (i + 1) p t
      constructor
      · rw [runLoop_cons_err_status world sig it rest i p t e hw, hsig i, h1,
          List.length_cons, okCount, itemOk, hw]
        simp
        try omega
      · rw [runLoop_cons_err_attempts world sig it rest i p t e hw, hsig i, h2,
          List.length_cons]

theorem runLoop_processed_le (world : Nat → ItemWorld) (sig : Nat → Bool) :
    ∀ (rest : List Item) (i p t : Nat) (flag : Bool),
      (runLoop world sig rest i p t flag).processedCount ≤ p + rest.length ∧
      ∀ x ∈ (runLoop world sig rest i p t flag).trace, x ≤ p + rest.length := by
  intro rest
  induction rest with
  | nil =>
    intro i p t flag
    constructor
    · simp [runLoop, RunOutput.processedCount]
    · intro x hx
      simp [runLoop] at hx
      omega
  | cons it rest ih =>
    intro i p t flag
    cases flag with
    | true =>
      constructor
      · simp [runLoop, RunOutput.processedCount]
      · intro x hx
        simp [runLoop] at hx
        omega
    | false =>
      cases hw : processItem (world i) with
      | ok c =>
        obtain ⟨h1, h2⟩ := ih (i + 1) (p + 1) t (sig i)
        constructor
        · have hpc : (runLoop world sig (it :: rest) i p t false).processedCount =
              (runLoop world sig rest (i + 1) (p + 1) t (sig i)).processedCount := by
            simp [RunOutput.processedCount,
              runLoop_cons_ok_status world sig it rest i p t c hw]
          rw [hpc, List.length_cons]
          omega
        · intro x hx
          rw [runLoop_cons_ok_trace world sig it rest i p t c hw] at hx
          rw [List.length_cons]
          rcases List.mem_cons.mp hx with h | h
          · omega
          · have := h2 x h
            omega
      | error e =>
        obtain ⟨h1, h2⟩ := ih (i + 1) p t (sig i)
        constructor
        · have hpc : (runLoop world sig (it :: rest) i p t false).processedCount =
              (runLoop world sig rest (i + 1) p t (sig i)).processedCount := by
            simp [RunOutput.processedCount,
              runLoop_cons_err_status world sig it rest i p t e hw]
          rw [hpc, List.length_cons]
          omega
        · intro x hx
          rw [runLoop_cons_err_trace world sig it rest i p t e hw] at hx
          rw [List.length_cons]
          rcases List.mem_cons.mp hx with h | h
          · omega
          · have := h2 x h
            omega

theorem runLoop_not_cancelled (world : Nat → ItemWorld) (sig : Nat → Bool) :
    ∀ (rest : List Item) (i p t : Nat),
      (∀ j, j < rest.length → itemOk (world (i + j)) = true) →
      (runLoop world sig rest i p t false).isCancelled = false →
      (runLoop world sig rest i p t false).status =
        RunStatus.completed (p + rest.length) := by
  intro rest
  induction rest with
  | nil => intro i p t _ _; simp [runLoop]
  | cons it rest ih =>
    intro i p t hok hnc
    have hok0 : itemOk (world i) = true := by
      have := hok 0 (by simp)
      simpa using this
    obtain ⟨c, hc⟩ := (itemOk_true_iff (world i)).mp hok0
    have hs := runLoop_cons_ok_status world sig it rest i p t c hc
    have hnc' : (runLoop world sig rest (i + 1) (p + 1) t (sig i)).isCancelled =
        false := by
      have : (runLoop world sig (it :: rest) i p t false).isCancelled =
          (runLoop world sig rest (i + 1) (p + 1) t (sig i)).isCancelled := by
        simp [RunOutput.isCancelled, hs]
      rw [← this]
      exact hnc
    cases hsi : sig i with
    | false =>
      rw [hsi] at hnc'
      have hres := ih (i + 1) (p + 1) t
        (fun j hj => by
          have := hok (j + 1) (by simpa using Nat.succ_lt_succ hj)
          rwa [show i + (j + 1) = i + 1 + j from by omega] at this)
        hnc'
      rw [hs, hsi, hres, List.length_cons]
      congr 1
      omega
    | true =>
      cases rest with
      | nil =>
        rw [hs, hsi]
        simp [runLoop]
      | cons it2 rest2 =>
        rw [hsi, runLoop_flag_true] at hnc'
        simp [RunOutput.isCancelled] at hnc'

theorem runLoop_cancel_after (world : Nat → ItemWorld) (sig : Nat → Bool) :
    ∀ (k : Nat) (rest : List Item) (i p t : Nat),
      0 < k → k < rest.length →
      (∀ j, j < k → itemOk (world (i + j)) = true) →
      (∀ j, j + 1 < k → sig (i + j) = false) →
      sig (i + (k - 1)) = true →
      (runLoop world sig rest i p t false).status =
          RunStatus.cancelledAt (p + k) t ∧
      (runLoop world sig rest i p t false).writes.map Prod.fst =
        (rest.take k).map destName := by
  intro k
  induction k with
  | zero => intro rest i p t h0 _ _ _ _; omega
  | succ m ih =>
    intro rest i p t h0 hlen hok hsig hsigk
    cases rest with
    | nil => simp at hlen
    | cons it rest =>
      have hok0 : itemOk (world i) = true := by
        have := hok 0 h0
        simpa using this
      obtain ⟨c, hc⟩ := (itemOk_true_iff (world i)).mp hok0
      have hs := runLoop_cons_ok_status world sig it rest i p t c hc
      have hwts := runLoop_cons_ok_writes world sig it rest i p t c hc
      cases m with
      | zero =>
        have hsi : sig i = true := by simpa using hsigk
        cases rest with
        | nil => simp at hlen
        | cons it2 rest2 =>
          constructor
          · rw [hs, hsi, runLoop_flag_true]
          · rw [hwts, hsi, runLoop_flag_true]
            simp [RunOutput.writes]
      | succ m2 =>
        have hsi : sig i = false := by
          have := hsig 0 (by omega)
          simpa using this
        have ihh := ih rest (i + 1) (p + 1) t (by omega)
          (by simp only [List.length_cons] at hlen; omega)
          (fun j hj => by
            have := hok (j + 1) (by omega)
            rwa [show i + (j + 1) = i + 1 + j from by omega] at this)
          (fun j hj => by
            have := hsig (j + 1) (by omega)
            rwa [show i + (j + 1) = i + 1 + j from by omega] at this)
          (by
            have := hsigk
            rwa [show i + (m2 + 1 + 1 - 1) = i + 1 + (m2 + 1 - 1) from by omega]
              at this)
        constructor
        · rw [hs, hsi, ihh.1]
          congr 1
          omega
        · rw [hwts, hsi]
          simp only [List.map_cons]
          rw [ihh.2]
          simp [List.take_succ_cons]

theorem runLoop_writes_dest (world : Nat → ItemWorld) (sig : Nat → Bool) :
    ∀ (rest : List Item) (i p t : Nat) (flag : Bool) (x : String × Img),
      x ∈ (runLoop world sig rest i p t flag).writes →
      ∃ it, it ∈ rest ∧ x.1 = destName it := by
  intro rest
  induction rest with
  | nil =>
    intro i p t flag x hx
    simp [runLoop, RunOutput.writes] at hx
  | cons it rest ih =>
    intro i p t flag x hx
    cases flag with
    | true =>
      rw [runLoop_flag_true] at hx
      simp [RunOutput.writes] at hx
    | false =>
      cases hw : processItem (world i) with
      | ok c =>
        rw [runLoop_cons_ok_writes world sig it rest i p t c hw] at hx
        rcases List.mem_cons.mp hx with h | h
        · exact ⟨it, List.mem_cons_self it rest, by rw [h]⟩
        · obtain ⟨it2, hmem, heq⟩ := ih (i + 1) (p + 1) t (sig i) x h
          exact ⟨it2, List.mem_cons_of_mem it hmem, heq⟩
      | error e =>
        rw [runLoop_cons_err_writes world sig it rest i p t e hw] at hx
        obtain ⟨it2, hmem, heq⟩ := ih (i + 1) p t (sig i) x hx
        exact ⟨it2, List.mem_cons_of_mem it hmem, heq⟩

theorem process_images_cons (prior : Bool) (it : Item) (rest : List Item)
    (world : Nat → ItemWorld) (sig : Nat → Bool) :
    process_images prior (it :: rest) world sig =
      { status := (runLoop world sig (it :: rest) 0 0 (it :: rest).length false).status
        events := Event.mkdirOut :: Event.onStart (it :: rest).length ::
          (runLoop world sig (it :: rest) 0 0 (it :: rest).length false).events
        trace := (runLoop world sig (it :: rest) 0 0 (it :: rest).length false).trace } :=
  rfl

theorem process_images_status (prior : Bool) (items : List Item)
    (world : Nat → ItemWorld) (sig : Nat → Bool) (h : items ≠ []) :
    (process_images prior items world sig).status =
      (runLoop world sig items 0 0 items.length false).status := by
  cases items with
  | nil => exact absurd rfl h
  | cons it rest => rw [process_images_cons]

theorem process_images_trace (prior : Bool) (items : List Item)
    (world : Nat → ItemWorld) (sig : Nat → Bool) (h : items ≠ []) :
    (process_images prior items world sig).trace =
      (runLoop world sig items 0 0 items.length false).trace := by
  cases items with
  | nil => exact absurd rfl h
  | cons it rest => rw [process_images_cons]

theorem process_images_writes (prior : Bool) (items : List Item)
    (world : Nat → ItemWorld) (sig : Nat → Bool) (h : items ≠ []) :
    (process_images prior items world sig).writes =
      (runLoop world sig items 0 0 items.length false).writes := by
  cases items with
  | nil => exact absurd rfl h
  | cons it rest =>
    rw [process_images_cons]
    simp [RunOutput.writes]

theorem process_images_attempts (prior : Bool) (items : List Item)
    (world : Nat → ItemWorld) (sig : Nat → Bool) (h : items ≠ []) :
    (process_images prior items world sig).attempts =
      (runLoop world sig items 0 0 items.length false).attempts := by
  cases items with
  | nil => exact absurd rfl h
  | cons it rest =>
    rw [process_images_cons]
    simp [RunOutput.attempts]

/-- C4: when the detection result is empty — `result.boxes` is `None` or
an empty box list — `detect_and_crop` returns the decoded source image
itself, and an item whose decode and save succeed therefore writes a
raster pixel-for-pixel identical to the decoded source (the loop writes
exactly the `Except.ok` value of `processItem`, see
`runLoop_cons_ok_writes`). -/
theorem detect_and_crop_empty_identity (image : Img)
    (boxes : Option (List Box)) (h : boxes = none ∨ boxes = some []) :
    detect_and_crop image boxes = Except.ok image ∧
    processItem ⟨Except.ok image, Except.ok boxes, true⟩ = Except.ok image := by
  rcases h with h | h <;> subst h <;>
    exact ⟨rfl, rfl⟩

/-- C4 witness: on the concrete image `imgA` with no boxes object at all,
the item writes `imgA` itself. -/
theorem detect_and_crop_empty_identity_inst :
    processItem ⟨Except.ok imgA, Except.ok none, true⟩ = Except.ok imgA :=
  (detect_and_crop_empty_identity imgA none (Or.inl rfl)).2

/-- An item whose collaborators all behave: the decode yields `imgA`,
the detector returns no boxes object, and the save succeeds. -/
def okWorld : ItemWorld :=
  { decode := Except.ok imgA, detect := Except.ok none, save := true }

/-- An item whose source file is not a valid image: `Image.open` (or the
subsequent load) raises a decode error. -/
def badWorld : ItemWorld :=
  { decode := Except.error ErrorKind.decodeError,
    detect := Except.ok none, save := true }

/-- A concrete three-item batch. -/
def items3 : List Item :=
  [{ stem := "a", suffix := ".jpg" }, { stem := "b", suffix := ".png" },
    { stem := "c", suffix := ".jpg" }]

/-- Concrete collaborator behaviour: item 1 is corrupt, items 0 and 2
are fine. -/
def world3 : Nat → ItemWorld := fun n => if n = 1 then badWorld else okWorld

/-- Concrete collaborator behaviour: every item is fine. -/
def worldOk3 : Nat → ItemWorld := fun _ => okWorld

/-- No cancel action ever fires. -/
def sigNever : Nat → Bool := fun _ => false

/-- The cancel action fires while item 0 is being processed. -/
def sigAt0 : Nat → Bool := fun n => n == 0

/-- C2: the cancellation flag is observed only at loop boundaries.  If
the first `k` items all succeed, no cancel action fires before item
`k - 1` (0-based) is in flight, and the cancel action fires during item
`k - 1` — i.e. after the boundary check for item `k - 1` and before the
boundary check for item `k`, which covers a signal arriving after item
`k - 1` completes and before item `k` begins — then the run terminates
cancelled with `processed_count = k` and the written destination files
are exactly those of the first `k` items: none (partial or otherwise)
for item `k` or beyond. -/
theorem process_images_cancel_between_items (prior : Bool)
    (items : List Item) (world : Nat → ItemWorld) (sig : Nat → Bool)
    (k : Nat) (hk : 0 < k) (hklen : k < items.length)
    (hok : ∀ j, j < k → itemOk (world j) = true)
    (hsig : ∀ j, j + 1 < k → sig j = false)
    (hsigk : sig (k - 1) = true) :
    (process_images prior items world sig).status =
      RunStatus.cancelledAt k items.length ∧
    (process_images prior items world sig).processedCount = k ∧
    (process_images prior items world sig).writes.map Prod.fst =
      (items.take k).map destName := by
  have hne : items ≠ [] := by
    intro h
    rw [h] at hklen
    simp at hklen
  obtain ⟨hst, hwr⟩ :=
    runLoop_cancel_after world sig k items 0 0 items.length hk hklen
      (fun j hj => by simpa using hok j hj)
      (fun j hj => by simpa using hsig j hj)
      (by simpa using hsigk)
  have h1 : (process_images prior items world sig).status =
      RunStatus.cancelledAt k items.length := by
    rw [process_images_status prior items world sig hne, hst]
    simp
  refine ⟨h1, processedCount_of_cancelled h1, ?_⟩
  rw [process_images_writes prior items world sig hne]
  exact hwr

/-- C2 witness: in a concrete three-item all-good batch, a cancel action
during item 0 stops the run at the next boundary: 1 item processed, and
only `a_cropped.jpg` written. -/
theorem process_images_cancel_between_items_inst :
    (process_images false items3 worldOk3 sigAt0).status =
      RunStatus.cancelledAt 1 3 :=
  (process_images_cancel_between_items false items3 worldOk3 sigAt0 1
    (by decide) (by decide)
    (fun j hj => by
      have hj1 : j < 1 := hj
      interval_cases j
      · decide)
    (fun j hj => absurd hj (by omega))
    rfl).1

/-- C6: for a non-empty batch, `processed_count ≤ total` at every
observation point of the run — every boundary value in the trace and the
final reported count are bounded by the total — and if the run was not
cancelled and no item failed, the final count equals the total. -/
theorem process_images_count_invariant (prior : Bool) (items : List Item)
    (world : Nat → ItemWorld) (sig : Nat → Bool) (hne : items ≠ []) :
    ((process_images prior items world sig).processedCount ≤ items.length ∧
      ∀ x ∈ (process_images prior items world sig).trace, x ≤ items.length) ∧
    ((process_images prior items world sig).isCancelled = false →
      (∀ m, m < items.length → itemOk (world m) = true) →
      (process_images prior items world sig).processedCount = items.length) := by
  have hpc : (process_images prior items world sig).processedCount =
      (runLoop world sig items 0 0 items.length false).processedCount := by
    simp [RunOutput.processedCount,
      process_images_status prior items world sig hne]
  constructor
  · obtain ⟨h1, h2⟩ := runLoop_processed_le world sig items 0 0 items.length false
    constructor
    · rw [hpc]
      simpa using h1
    · intro x hx
      rw [process_images_trace prior items world sig hne] at hx
      have := h2 x hx
      omega
  · intro hnc hall
    have hnc2 : (runLoop world sig items 0 0 items.length false).isCancelled =
        false := by
      have heq : (process_images prior items world sig).isCancelled =
          (runLoop world sig items 0 0 items.length false).isCancelled := by
        simp [RunOutput.isCancelled,
          process_images_status prior items world sig hne]
      rw [heq] at hnc
      exact hnc
    have hres := runLoop_not_cancelled world sig items 0 0 items.length
      (fun j hj => by simpa using hall j hj) hnc2
    rw [hpc, processedCount_of_completed hres]
    simp

/-- C6 witness: the concrete three-item batch with one corrupt item
keeps its count within the total. -/
theorem process_images_count_invariant_inst :
    (process_images false items3 world3 sigNever).processedCount ≤
      items3.length :=
  (process_images_count_invariant false items3 world3 sigNever
    (by decide)).1.1

/-- C7: an empty item list makes `process_images` return immediately
with the zero summary — no items processed, not cancelled — without
opening the progress window (the spec's `on_start`), without creating
the output directory, and without writing any file: the event log is
empty. -/
theorem process_images_empty_list (prior : Bool) (world : Nat → ItemWorld)
    (sig : Nat → Bool) :
    process_images prior [] world sig =
      { status := RunStatus.noImages, events := [], trace := [] } ∧
    (process_images prior [] world sig).processedCount = 0 ∧
    (process_images prior [] world sig).isCancelled = false ∧
    (process_images prior [] world sig).startEvents = [] ∧
    (process_images prior [] world sig).writes = [] :=
  ⟨rfl, rfl, rfl, rfl, rfl⟩

/-- C8: every destination file written by a run is named
`stem ++ "_cropped" ++ suffix` for some item of the batch (preserving
the source extension), the very first observable action of a non-empty
run is creating the output directory (so it exists before the first
write), and `mkdir(exist_ok=True)` is idempotent: it succeeds whether or
not the directory already exists. -/
theorem process_images_dest_naming (prior : Bool) (items : List Item)
    (world : Nat → ItemWorld) (sig : Nat → Bool) (hne : items ≠ []) :
    (process_images prior items world sig).events.head? =
      some Event.mkdirOut ∧
    (∀ x ∈ (process_images prior items world sig).writes,
      ∃ it, it ∈ items ∧ x.1 = it.stem ++ "_cropped" ++ it.suffix) ∧
    (∀ b, mkdirExistOk b = Except.ok true) := by
  refine ⟨?_, ?_, fun b => rfl⟩
  · cases items with
    | nil => exact absurd rfl hne
    | cons it rest =>
      rw [process_images_cons]
      rfl
  · intro x hx
    rw [process_images_writes prior items world sig hne] at hx
    obtain ⟨it, hmem, heq⟩ :=
      runLoop_writes_dest world sig items 0 0 items.length false x hx
    exact ⟨it, hmem, heq⟩

/-- C8 witness: in the concrete three-item batch, the first event of the
run is the output-directory creation. -/
theorem process_images_dest_naming_inst :
    (process_images false items3 world3 sigNever).events.head? =
      some Event.mkdirOut :=
  (process_images_dest_naming false items3 world3 sigNever (by decide)).1

/-- C10: `create_progress_window` resets `PROGRESS_CANCELLED` to `false`
at the start of each run, so the run's result never depends on the flag
value left by a previous run, and with no cancel action in this run the
batch is never cancelled; and within a run the loop never clears the
flag: once it is `true` at a boundary with items remaining, the loop
cancels there and then. -/
theorem cancellation_flag_reset_and_monotone (prior : Bool)
    (items : List Item) (world : Nat → ItemWorld) (sig : Nat → Bool) :
    process_images prior items world sig =
      process_images false items world sig ∧
    ((∀ n, sig n = false) →
      (process_images prior items world sig).isCancelled = false) ∧
    (∀ (it : Item) (rest : List Item) (i p t : Nat),
      runLoop world sig (it :: rest) i p t true =
        { status := RunStatus.cancelledAt p t
          events := [Event.closeWindow]
          trace := [p] }) := by
  refine ⟨rfl, ?_, fun it rest i p t =>
    runLoop_flag_true world sig it rest i p t⟩
  intro hsig
  cases items with
  | nil => rfl
  | cons it rest =>
    have hne : (it :: rest) ≠ [] := by simp
    have hst := (runLoop_no_sig_completed world sig hsig (it :: rest) 0 0
      (it :: rest).length).1
    have h1 : (process_images prior (it :: rest) world sig).status =
        RunStatus.completed (0 + okCount world 0 (it :: rest).length) := by
      rw [process_images_status prior (it :: rest) world sig hne, hst]
    exact isCancelled_of_completed h1

/-- C10 witness: a run started with the flag still `true` from a
previous run, and no cancel action of its own, is not cancelled. -/
theorem cancellation_flag_reset_and_monotone_inst :
    (process_images true items3 world3 sigNever).isCancelled = false :=
  (cancellation_flag_reset_and_monotone true items3 world3 sigNever).2.1
    (fun _ => rfl)

/-- pathlib's `Path.suffix` for a file name: the substring starting at
the last dot, unless that dot is the first character (so hidden names
like `.DS_Store` have no suffix) or the last character. -/
def pathSuffix (name : String) : String :=
  let cs := name.toList
  match cs.reverse.findIdx? (fun c => c == '.') with
  | none => ""
  | some jr =>
    let i := cs.length - 1 - jr
    if 0 < i ∧ i < cs.length - 1 then String.mk (cs.drop i) else ""

/-- The extension whitelist of src/main.py line 151:
`('.jpg', '.jpeg', '.png', '.bmp', '.gif')` — note there is no
`.webp` entry. -/
def IMAGE_EXTS : List String := [".jpg", ".jpeg", ".png", ".bmp", ".gif"]

/-- One directory entry as seen by `IMAGES_PATH.iterdir()`: its name and
whether it is a regular file. -/
structure DirEntry where
  name : String
  isFile : Bool
  deriving DecidableEq

/-- Python's `name.startswith('.')`: whether the first character of the
file name is a dot. -/
def startsWithDot (name : String) : Bool :=
  match name.toList with
  | [] => false
  | c :: _ => c == '.'

/-- Python's `str.lower()` restricted to ASCII, which covers every
extension the whitelist compares against. -/
def asciiLower (s : String) : String :=
  String.mk (s.toList.map (fun c =>
    if 'A' ≤ c ∧ c ≤ 'Z' then Char.ofNat (c.toNat + 32) else c))

/-- The `EXAMPLES` list comprehension of src/main.py lines 146-152:
keep an entry when the images directory exists and is a directory
(`dirOk`), the name is not a dotfile, the entry is a regular file, and
the lower-cased suffix is in the whitelist. -/
def EXAMPLES (dirOk : Bool) (entries : List DirEntry) : List DirEntry :=
  entries.filter (fun p =>
    dirOk && !startsWithDot p.name && p.isFile &&
      IMAGE_EXTS.contains (asciiLower (pathSuffix p.name)))

/-- A visible regular file with the `.webp` extension. -/
def webpEntry : DirEntry := { name := "photo.webp", isFile := true }

/-- C9 counterexample: `photo.webp` is a non-hidden regular file whose
extension is in the claim's whitelist (which includes `.webp`), yet the
code's enumeration excludes it — the source whitelist stops at `.gif`. -/
theorem enumeration_webp_excluded_cex :
    webpEntry ∉ EXAMPLES true [webpEntry] := by decide

/-- C9 (amended): the enumeration includes exactly the regular,
non-hidden files of the selected directory whose lower-cased suffix is
one of `.jpg .jpeg .png .bmp .gif` — `.webp` is not in the code's
whitelist. -/
theorem enumeration_filter_characterization (dirOk : Bool)
    (entries : List DirEntry) (p : DirEntry) :
    p ∈ EXAMPLES dirOk entries ↔
      (p ∈ entries ∧ dirOk = true ∧ startsWithDot p.name = false ∧
        p.isFile = true ∧
        IMAGE_EXTS.contains (asciiLower (pathSuffix p.name)) = true) := by
  simp only [EXAMPLES, List.mem_filter, Bool.and_eq_true, Bool.not_eq_true']
  tauto

/-- Python exception classes that can escape the `try` block of
`process_images` (src/main.py lines 312-324): the classes named in its
`except` clauses, together with classes none of them catch —
`RuntimeError` as raised by `MODEL.predict` on an inference failure,
and `OverflowError` as raised by PIL when rounding a non-finite box
coordinate. -/
inductive PyExc
  | fileNotFoundError
  | permissionError
  | unidentifiedImageError
  | osError
  | valueError
  | runtimeError
  | overflowError
  deriving DecidableEq

/-- The `except` clauses at src/main.py lines 325-330: they catch
`FileNotFoundError`, `PermissionError`, `OSError` (hence also its
subclass `Image.UnidentifiedImageError`) and `ValueError`, and nothing
else — a `RuntimeError` or an `OverflowError` raised inside the `try`
block is not caught. -/
def caughtByExcept : PyExc → Bool
  | PyExc.fileNotFoundError => true
  | PyExc.permissionError => true
  | PyExc.unidentifiedImageError => true
  | PyExc.osError => true
  | PyExc.valueError => true
  | PyExc.runtimeError => false
  | PyExc.overflowError => false

/-- Terminal outcome of `process_images` at exception level: the three
in-band returns (lines 294, 307, 335), plus the out-of-band termination
in which an uncaught exception propagates out of the loop and aborts the
batch, recording how many items had been processed when it escaped. -/
inductive ExcRunStatus
  | noImages
  | cancelledAt (processed total : Nat)
  | completed (processed : Nat)
  | exceptionAborted (processed : Nat) (e : PyExc)
  deriving DecidableEq

/-- Result of one exception-level run: the terminal status and how many
items were attempted (reached the `try` block). -/
structure ExcRunOutput where
  status : ExcRunStatus
  attempts : Nat
  deriving DecidableEq

/-- The `for` loop of `process_images` at exception level.  `body i` is
the outcome of the whole `try` block for item `i` — `Except.error e`
when some collaborator call raises the exception class `e`.  A raised
class in the catch set of lines 325-330 is logged and the loop
continues; a class outside it propagates and the run terminates with
`exceptionAborted`. -/
def runLoopExc (body : Nat → Except PyExc Img) (sig : Nat → Bool) :
    List Item → Nat → Nat → Nat → Bool → ExcRunOutput
  | [], _i, processed, _total, _flag =>
    { status := ExcRunStatus.completed processed
      attempts := 0 }
  | _it :: rest, i, processed, total, flag =>
    if flag then
      { status := ExcRunStatus.cancelledAt processed total
        attempts := 0 }
    else
      match body i with
      | Except.ok _ =>
        let out := runLoopExc body sig rest (i + 1) (processed + 1) total (sig i)
        { status := out.status, attempts := out.attempts + 1 }
      | Except.error e =>
        if caughtByExcept e then
          let out := runLoopExc body sig rest (i + 1) processed total (sig i)
          { status := out.status, attempts := out.attempts + 1 }
        else
          { status := ExcRunStatus.exceptionAborted processed e
            attempts := 1 }

/-- `process_images` at exception level: the empty-list early return of
line 294, otherwise the loop, started with the flag freshly reset. -/
def process_images_exc (_priorFlag : Bool) (items : List Item)
    (body : Nat → Except PyExc Img) (sig : Nat → Bool) : ExcRunOutput :=
  if items.isEmpty then
    { status := ExcRunStatus.noImages, attempts := 0 }
  else runLoopExc body sig items 0 0 items.length false

theorem process_images_exc_ne (prior : Bool) (items : List Item)
    (body : Nat → Except PyExc Img) (sig : Nat → Bool) (h : items ≠ []) :
    process_images_exc prior items body sig =
      runLoopExc body sig items 0 0 items.length false := by
  cases items with
  | nil => exact absurd rfl h
  | cons it rest => rfl

theorem runLoopExc_cons_ok_status (body : Nat → Except PyExc Img)
    (sig : Nat → Bool) (it : Item) (rest : List Item) (i p t : Nat) (c : Img)
    (h : body i = Except.ok c) :
    (runLoopExc body sig (it :: rest) i p t false).status =
      (runLoopExc body sig rest (i + 1) (p + 1) t (sig i)).status := by
  simp [runLoopExc, h]

theorem runLoopExc_cons_ok_attempts (body : Nat → Except PyExc Img)
    (sig : Nat → Bool) (it : Item) (rest : List Item) (i p t : Nat) (c : Img)
    (h : body i = Except.ok c) :
    (runLoopExc body sig (it :: rest) i p t false).attempts =
      (runLoopExc body sig rest (i + 1) (p + 1) t (sig i)).attempts + 1 := by
  simp [runLoopExc, h]

theorem runLoopExc_cons_caught_status (body : Nat → Except PyExc Img)
    (sig : Nat → Bool) (it : Item) (rest : List Item) (i p t : Nat) (e : PyExc)
    (h : body i = Except.error e) (hc : caughtByExcept e = true) :
    (runLoopExc body sig (it :: rest) i p t false).status =
      (runLoopExc body sig rest (i + 1) p t (sig i)).status := by
  simp [runLoopExc, h, hc]

theorem runLoopExc_cons_caught_attempts (body : Nat → Except PyExc Img)
    (sig : Nat → Bool) (it : Item) (rest : List Item) (i p t : Nat) (e : PyExc)
    (h : body i = Except.error e) (hc : caughtByExcept e = true) :
    (runLoopExc body sig (it :: rest) i p t false).attempts =
      (runLoopExc body sig rest (i + 1) p t (sig i)).attempts + 1 := by
  simp [runLoopExc, h, hc]

theorem runLoopExc_cons_uncaught_status (body : Nat → Except PyExc Img)
    (sig : Nat → Bool) (it : Item) (rest : List Item) (i p t : Nat) (e : PyExc)
    (h : body i = Except.error e) (hc : caughtByExcept e = false) :
    (runLoopExc body sig (it :: rest) i p t false).status =
      ExcRunStatus.exceptionAborted p e := by
  simp [runLoopExc, h, hc]

theorem runLoopExc_cons_uncaught_attempts (body : Nat → Except PyExc Img)
    (sig : Nat → Bool) (it : Item) (rest : List Item) (i p t : Nat) (e : PyExc)
    (h : body i = Except.error e) (hc : caughtByExcept e = false) :
    (runLoopExc body sig (it :: rest) i p t false).attempts = 1 := by
  simp [runLoopExc, h, hc]

/-- Whether one item's `try` block runs to the end without raising. -/
def bodyOk (r : Except PyExc Img) : Bool :=
  match r with
  | Except.ok _ => true
  | Except.error _ => false

theorem bodyOk_true_iff (r : Except PyExc Img) :
    bodyOk r = true ↔ ∃ c, r = Except.ok c := by
  cases r <;> simp [bodyOk]

/-- Number of non-raising items among `body i, ..., body (i + n - 1)`. -/
def okCountE (body : Nat → Except PyExc Img) (i : Nat) : Nat → Nat
  | 0 => 0
  | n + 1 => (if bodyOk (body i) then 1 else 0) + okCountE body (i + 1) n

theorem okCountE_all_ok (body : Nat → Except PyExc Img) :
    ∀ (n i : Nat), (∀ m, i ≤ m → m < i + n → bodyOk (body m) = true) →
      okCountE body i n = n := by
  intro n
  induction n with
  | zero => intro i _; rfl
  | succ n ih =>
    intro i h
    have h0 : bodyOk (body i) = true := h i le_rfl (by omega)
    have hr : okCountE body (i + 1) n = n :=
      ih (i + 1) (fun m hm1 hm2 => h m (by omega) (by omega))
    rw [okCountE, h0, hr]
    simp
    omega

theorem okCountE_one_fail (body : Nat → Except PyExc Img) :
    ∀ (n i j : Nat), i ≤ j → j < i + n →
      bodyOk (body j) = false →
      (∀ m, i ≤ m → m < i + n → m ≠ j → bodyOk (body m) = true) →
      okCountE body i n = n - 1 := by
  intro n
  induction n with
  | zero => intro i j h1 h2 _ _; omega
  | succ n ih =>
    intro i j h1 h2 h3 h4
    by_cases hij : i = j
    · subst hij
      have hr : okCountE body (i + 1) n = n :=
        okCountE_all_ok body n (i + 1)
          (fun m hm1 hm2 => h4 m (by omega) (by omega) (by omega))
      rw [okCountE, h3, hr]
      simp
    · have hhead : bodyOk (body i) = true := h4 i le_rfl (by omega) hij
      have hr : okCountE body (i + 1) n = n - 1 :=
        ih (i + 1) j (by omega) (by omega) h3
          (fun m hm1 hm2 hmj => h4 m (by omega) (by omega) hmj)
      rw [okCountE, hhead, hr]
      simp
      omega

theorem runLoopExc_no_sig_caught (body : Nat → Except PyExc Img)
    (sig : Nat → Bool) (hsig : ∀ n, sig n = false) :
    ∀ (rest : List Item) (i p t : Nat),
      (∀ m e, i ≤ m → m < i + rest.length → body m = Except.error e →
        caughtByExcept e = true) →
      (runLoopExc body sig rest i p t false).status =
        ExcRunStatus.completed (p + okCountE body i rest.length) ∧
      (runLoopExc body sig rest i p t false).attempts = rest.length := by
  intro rest
  induction rest with
  | nil =>
    intro i p t _
    constructor
    · simp [runLoopExc, okCountE]
    · simp [runLoopExc]
  | cons it rest ih =>
    intro i p t hcap
    have hcap2 : ∀ m e, i + 1 ≤ m → m < i + 1 + rest.length →
        body m = Except.error e → caughtByExcept e = true :=
      fun m e hm1 hm2 hbe =>
        hcap m e (by omega) (by simp only [List.length_cons]; omega) hbe
    obtain ⟨h1, h2⟩ := ih (i + 1) p t hcap2
    obtain ⟨h1ok, h2ok⟩ := ih (i + 1) (p + 1) t hcap2
    cases hb : body i with
    | ok c =>
      constructor
      · rw [runLoopExc_cons_ok_status body sig it rest i p t c hb, hsig i,
          h1ok, List.length_cons, okCountE, hb]
        simp [bodyOk]
        try omega
      · rw [runLoopExc_cons_ok_attempts body sig it rest i p t c hb, hsig i,
          h2ok, List.length_cons]
    | error e =>
      have hce : caughtByExcept e = true :=
        hcap i e le_rfl (by simp only [List.length_cons]; omega) hb
      constructor
      · rw [runLoopExc_cons_caught_status body sig it rest i p t e hb hce,
          hsig i, h1, List.length_cons, okCountE, hb]
        simp [bodyOk]
      · rw [runLoopExc_cons_caught_attempts body sig it rest i p t e hb hce,
          hsig i, h2, List.length_cons]

theorem runLoopExc_abort (body : Nat → Except PyExc Img) (sig : Nat → Bool)
    (hsig : ∀ n, sig n = false) :
    ∀ (k : Nat) (rest : List Item) (i p t : Nat) (e : PyExc),
      k < rest.length →
      (∀ m, i ≤ m → m < i + k → bodyOk (body m) = true) →
      body (i + k) = Except.error e →
      caughtByExcept e = false →
      (runLoopExc body sig rest i p t false).status =
        ExcRunStatus.exceptionAborted (p + k) e ∧
      (runLoopExc body sig rest i p t false).attempts = k + 1 := by
  intro k
  induction k with
  | zero =>
    intro rest i p t e hlen hok hfail hunc
    cases rest with
    | nil => simp at hlen
    | cons it rest =>
      have hb : body i = Except.error e := by simpa using hfail
      constructor
      · rw [runLoopExc_cons_uncaught_status body sig it rest i p t e hb hunc]
        simp
      · rw [runLoopExc_cons_uncaught_attempts body sig it rest i p t e hb hunc]
  | succ m ih =>
    intro rest i p t e hlen hok hfail hunc
    cases rest with
    | nil => simp at hlen
    | cons it rest =>
      have hb0 : bodyOk (body i) = true := hok i le_rfl (by omega)
      obtain ⟨c, hb⟩ := (bodyOk_true_iff (body i)).mp hb0
      have ihh := ih rest (i + 1) (p + 1) t e
        (by simp only [List.length_cons] at hlen; omega)
        (fun m2 hm1 hm2 => hok m2 (by omega) (by omega))
        (by rwa [show i + 1 + m = i + (m + 1) from by omega])
        hunc
      constructor
      · rw [runLoopExc_cons_ok_status body sig it rest i p t c hb, hsig i,
          ihh.1]
        congr 1
        omega
      · rw [runLoopExc_cons_ok_attempts body sig it rest i p t c hb, hsig i,
          ihh.2]

/-- A concrete batch behaviour in which item 1's inference call raises
`RuntimeError` (an uncaught class) and every other item succeeds. -/
def bodyInfFail3 : Nat → Except PyExc Img :=
  fun n => if n = 1 then Except.error PyExc.runtimeError else Except.ok imgA

/-- C1 counterexample: in the concrete three-item batch where item 1
fails with an inference error surfacing as `RuntimeError` — one of the
claim's five kinds — the exception is not caught by the `except`
clauses of lines 325-330: the run does NOT reach the completed state
with `processed_count = N - 1 = 2`; it aborts at item 1 with the
exception propagating out of the loop. -/
theorem process_images_exc_inference_abort_cex :
    (process_images_exc false items3 bodyInfFail3 sigNever).status =
      ExcRunStatus.exceptionAborted 1 PyExc.runtimeError ∧
    ¬ (process_images_exc false items3 bodyInfFail3 sigNever).status =
      ExcRunStatus.completed 2 := by decide

/-- C1 (amended): per-item failures are swallowed exactly when they
surface as one of the exception classes caught at src/main.py
lines 325-330.  With item `j` the single raising item: if its class is
in the catch set, the failure is absorbed at the item boundary, every
item is attempted, and the batch completes with
`processed_count = N - 1`; if its class is outside the catch set — e.g.
`RuntimeError` from `MODEL.predict` or `OverflowError` from a
non-finite box coordinate — the exception propagates out of the loop,
aborting the batch at item `j` with the remaining items never
attempted. -/
theorem process_images_per_item_catch_policy (prior : Bool)
    (items : List Item) (body : Nat → Except PyExc Img) (sig : Nat → Bool)
    (j : Nat) (e : PyExc) (hj : j < items.length)
    (hsig : ∀ n, sig n = false)
    (hfail : body j = Except.error e)
    (hok : ∀ m, m < items.length → m ≠ j → ∃ c, body m = Except.ok c) :
    (caughtByExcept e = true →
      (process_images_exc prior items body sig).status =
        ExcRunStatus.completed (items.length - 1) ∧
      (process_images_exc prior items body sig).attempts = items.length) ∧
    (caughtByExcept e = false →
      (process_images_exc prior items body sig).status =
        ExcRunStatus.exceptionAborted j e ∧
      (process_images_exc prior items body sig).attempts = j + 1) := by
  have hne : items ≠ [] := by
    intro h
    rw [h] at hj
    simp at hj
  rw [process_images_exc_ne prior items body sig hne]
  constructor
  · intro hc
    have hcap : ∀ m e2, 0 ≤ m → m < 0 + items.length →
        body m = Except.error e2 → caughtByExcept e2 = true := by
      intro m e2 _ hm hbe
      by_cases hmj : m = j
      · subst hmj
        rw [hfail] at hbe
        rw [← Except.error.inj hbe]
        exact hc
      · obtain ⟨c, hcm⟩ := hok m (by omega) hmj
        rw [hcm] at hbe
        simp at hbe
    obtain ⟨hst, hat⟩ :=
      runLoopExc_no_sig_caught body sig hsig items 0 0 items.length hcap
    have hcnt : okCountE body 0 items.length = items.length - 1 :=
      okCountE_one_fail body items.length 0 j (by omega) (by omega)
        (by rw [hfail]; rfl)
        (fun m hm1 hm2 hmj => by
          obtain ⟨c, hcm⟩ := hok m (by omega) hmj
          rw [hcm]; rfl)
    constructor
    · rw [hst, hcnt]
      simp
    · exact hat
  · intro hc
    have hres := runLoopExc_abort body sig hsig j items 0 0 items.length e hj
      (fun m hm1 hm2 => by
        obtain ⟨c, hcm⟩ := hok m (by omega) (by omega)
        rw [hcm]; rfl)
      (by simpa using hfail)
      hc
    constructor
    · rw [hres.1]
      simp
    · exact hres.2

/-- A concrete batch behaviour in which item 1's decode raises
`UnidentifiedImageError` (a caught class) and every other item
succeeds. -/
def bodyDecodeFail3 : Nat → Except PyExc Img :=
  fun n =>
    if n = 1 then Except.error PyExc.unidentifiedImageError
    else Except.ok imgA

/-- C1 amended-claim witness: with item 1 failing in a caught class
(a corrupt image file), the concrete three-item batch completes with
`processed_count = 2`. -/
theorem process_images_per_item_catch_policy_inst :
    (process_images_exc false items3 bodyDecodeFail3 sigNever).status =
      ExcRunStatus.completed 2 :=
  (((process_images_per_item_catch_policy false items3 bodyDecodeFail3
    sigNever 1 PyExc.unidentifiedImageError (by decide) (fun _ => rfl) rfl
    (fun m hm hmj => by
      have hm3 : m < 3 := hm
      interval_cases m
      · exact ⟨imgA, rfl⟩
      · exact absurd rfl hmj
      · exact ⟨imgA, rfl⟩)).1) rfl).1
